import Mathlib

/-!
Verification development for the trade-backtest repository.

The definitions below are shallow embeddings of the streaming indicator
calculators (`ema.py`, `adx.py`, `boolean_lookback_counter.py`,
`rolling_high_low_tracker.py`, `base_count.py`), of the statistics engine
(`strategy_stats.py`), and of the trade-simulation loops of
`strategy_daily_ema_trend.py` and `strategy_daily_5ma.py`.

Python floats are modelled as exact rationals, `datetime` values as integer
day numbers (so `(d2 - d1).days` becomes integer subtraction), and the
`None` marker as `Option`.  Python lists and `collections.deque` objects
become Lean lists; `deque(maxlen=n).append` drops the oldest element when
the window is full.  Truthiness checks such as `if not all([...])` are
modelled by `truthy`, which is false for `None` and for the number `0`,
exactly as in Python.
-/

namespace TradeBacktest

/-! ## Data model: Trade (`strategy_stats.py`) -/

structure Trade where
  entryDate : ℤ
  entryPrice : ℚ
  exitDate : ℤ
  exitPrice : ℚ
  deriving DecidableEq, Repr

/-- `Trade.holding_period`: exit_date - entry_date, in days. -/
def Trade.holdingPeriod (t : Trade) : ℤ := t.exitDate - t.entryDate

/-- `Trade.profit_pct`: ((exit_price - entry_price) / entry_price) * 100. -/
def Trade.profitPct (t : Trade) : ℚ :=
  (t.exitPrice - t.entryPrice) / t.entryPrice * 100

/-! ## EMA (`ema.py`) -/

structure EMA where
  days : ℕ
  prices : List ℚ
  currentEma : Option ℚ
  deriving DecidableEq, Repr

def EMA.init (days : ℕ) : EMA := ⟨days, [], none⟩

/-- `EMA.push`: appends the price; the `days`-th push seeds the value with the
simple mean; later pushes apply the recurrence and return the new value.
The first `days` pushes return `None`.  (The branch reading a missing
`current_ema` is unreachable for `days ≥ 1`.) -/
def EMA.push (s : EMA) (price : ℚ) : EMA × Option ℚ :=
  let prices := s.prices ++ [price]
  if prices.length < s.days then
    ({ s with prices := prices }, none)
  else if prices.length = s.days then
    ({ s with prices := prices, currentEma := some (prices.sum / s.days) }, none)
  else
    match s.currentEma with
    | some prev =>
        let v := (price - prev) * (2 / (s.days + 1)) + prev
        ({ s with prices := prices, currentEma := some v }, some v)
    | none => ({ s with prices := prices }, none)

def EMA.getEma (s : EMA) : Option ℚ := s.currentEma

def EMA.pushList (s : EMA) (ps : List ℚ) : EMA :=
  ps.foldl (fun st p => (st.push p).1) s

/-- The list of `push` return values over a price series (what
`strategy_daily_5ma.py` records into its `ma*_values` arrays). -/
def EMA.outputs : EMA → List ℚ → List (Option ℚ)
  | _, [] => []
  | s, p :: ps => (s.push p).2 :: EMA.outputs (s.push p).1 ps

/-- The list of `get_ema()` values after each push (what
`strategy_daily_ema_trend.py` records into its `ema*_values` arrays). -/
def EMA.getSeries : EMA → List ℚ → List (Option ℚ)
  | _, [] => []
  | s, p :: ps => (s.push p).1.getEma :: EMA.getSeries (s.push p).1 ps

/-! ## BooleanLookbackCounter (`boolean_lookback_counter.py`) -/

structure BooleanLookbackCounter where
  lookbackPeriod : ℕ
  values : List Bool
  deriving DecidableEq, Repr

def BooleanLookbackCounter.init (n : ℕ) : BooleanLookbackCounter := ⟨n, []⟩

/-- `deque(maxlen=n).append`: evicts the oldest element when full. -/
def dequePush (maxlen : ℕ) (l : List α) (v : α) : List α :=
  if l.length = maxlen then l.tail ++ [v] else l ++ [v]

def BooleanLookbackCounter.push (s : BooleanLookbackCounter) (v : Bool) :
    BooleanLookbackCounter :=
  { s with values := dequePush s.lookbackPeriod s.values v }

/-- `sum(self.values)` over booleans counts the `True` entries. -/
def BooleanLookbackCounter.countTrue (s : BooleanLookbackCounter) : ℕ :=
  s.values.count true

def BooleanLookbackCounter.countFalse (s : BooleanLookbackCounter) : ℕ :=
  s.values.length - s.countTrue

def BooleanLookbackCounter.pushList (s : BooleanLookbackCounter)
    (vs : List Bool) : BooleanLookbackCounter :=
  vs.foldl BooleanLookbackCounter.push s

/-! ## RollingHighLowTracker (`rolling_high_low_tracker.py`) -/

structure RollingHighLowTracker where
  lookbackPeriod : ℕ
  prices : List ℚ
  deriving DecidableEq, Repr

def RollingHighLowTracker.init (n : ℕ) : RollingHighLowTracker := ⟨n, []⟩

/-- `get_high_low()`: `(None, None)` on an empty window, else `(min, max)`. -/
def RollingHighLowTracker.getHighLow (s : RollingHighLowTracker) :
    Option (ℚ × ℚ) :=
  match s.prices with
  | [] => none
  | x :: xs => some (xs.foldl min x, xs.foldl max x)

def RollingHighLowTracker.push (s : RollingHighLowTracker) (price : ℚ) :
    RollingHighLowTracker × Option (ℚ × ℚ) :=
  let s := { s with prices := dequePush s.lookbackPeriod s.prices price }
  (s, s.getHighLow)

/-- The high component of `get_high_low()`, read at call sites where the
tracker has just been pushed (hence is non-empty). -/
def RollingHighLowTracker.highOf (s : RollingHighLowTracker) : ℚ :=
  match s.getHighLow with
  | some p => p.2
  | none => 0

/-! ## BaseCounter (`base_count.py`) -/

structure BaseCounter where
  monthlyHigh : RollingHighLowTracker
  threeMonthHigh : RollingHighLowTracker
  baseCount : ℕ
  baseHigh : ℚ
  inBase : Bool
  baseStartDate : ℤ
  startBaseCounting : Bool
  deriving DecidableEq, Repr

def BaseCounter.init : BaseCounter :=
  ⟨RollingHighLowTracker.init 20, RollingHighLowTracker.init 63,
   0, 0, false, 0, false⟩

def BaseCounter.getBaseCount (s : BaseCounter) : ℕ := s.baseCount

def BaseCounter.isBaseCounting (s : BaseCounter) : Bool := s.startBaseCounting

/-- `reset_base`: zeroes the counting state (the trackers are untouched). -/
def BaseCounter.resetBase (s : BaseCounter) : BaseCounter :=
  { s with baseCount := 0, baseHigh := 0, inBase := false,
           baseStartDate := 0, startBaseCounting := false }

/-- `BaseCounter.push`: pushes the price into both trackers, then applies the
transition rules of `base_count.py` in order; the `price < ema200` reset has
the highest priority and returns immediately. -/
def BaseCounter.push (s : BaseCounter) (date : ℤ) (price e50 e150 e200 : ℚ) :
    BaseCounter :=
  let s := { s with monthlyHigh := (s.monthlyHigh.push price).1,
                    threeMonthHigh := (s.threeMonthHigh.push price).1 }
  if price < e200 then s.resetBase
  else if s.startBaseCounting = false then
    if price > e150 ∧ e150 > e200 ∧ price > e50 then
      { s with startBaseCounting := true, inBase := true,
               baseStartDate := date, baseCount := 0,
               baseHigh := s.monthlyHigh.highOf }
    else s
  else if s.inBase = false then
    if price < e50 then
      { s with inBase := true, baseStartDate := date,
               baseHigh := s.monthlyHigh.highOf }
    else s
  else if price > s.baseHigh ∧ price > e50 ∧ date - s.baseStartDate < 20 then
    s
  else
    let gain := (price - s.baseHigh) / s.baseHigh
    if price > s.baseHigh ∧ gain > 1/10 then
      { s with baseCount := s.baseCount + 1, inBase := false }
    else s

/-! ## ADX (`adx.py`) -/

structure ADX where
  period : ℕ
  prevHigh : Option ℚ
  prevLow : Option ℚ
  plusDm : List ℚ
  minusDm : List ℚ
  tr : List ℚ
  plusDi : Option ℚ
  minusDi : Option ℚ
  adxValue : Option ℚ
  dxValues : List ℚ
  deriving DecidableEq, Repr

def ADX.init (period : ℕ) : ADX :=
  ⟨period, none, none, [], [], [], none, none, none, []⟩

/-- The `(+DM, -DM)` pair of `_calculate_directional_movement`: `(0, 0)` on
the first bar, otherwise derived from the moves against the previous bar. -/
def ADX.dmVals (s : ADX) (high low : ℚ) : ℚ × ℚ :=
  match s.prevHigh, s.prevLow with
  | some ph, some pl =>
      let up := high - ph
      let down := pl - low
      (if up > down ∧ up > 0 then up else 0,
       if down > up ∧ down > 0 then down else 0)
  | _, _ => (0, 0)

/-- `_calculate_true_range`: max of high-low, |high-prevClose|, |low-prevClose|. -/
def ADX.trueRange (high low prevClose : ℚ) : ℚ :=
  max (high - low) (max |high - prevClose| |low - prevClose|)

/-- `ADX.push`.  Note two faithful quirks of `adx.py`: the call
`self._calculate_true_range(high, low, close)` passes the CURRENT close as
the `prev_close` argument, and the three buffers are popped together once
`plus_dm` overflows, although `tr` started one element behind. -/
def ADX.push (s : ADX) (high low close : ℚ) :
    ADX × Option ℚ × Option ℚ × Option ℚ :=
  let pdm := (s.dmVals high low).1
  let mdm := (s.dmVals high low).2
  let s1 := { s with prevHigh := some high, prevLow := some low }
  let pd0 := s1.plusDm ++ [pdm]
  let md0 := s1.minusDm ++ [mdm]
  let tr0 := if 1 < pd0.length then s1.tr ++ [ADX.trueRange high low close]
             else s1.tr
  let pd1 := if s1.period < pd0.length then pd0.tail else pd0
  let md1 := if s1.period < pd0.length then md0.tail else md0
  let tr1 := if s1.period < pd0.length then tr0.tail else tr0
  if pd1.length = s1.period then
    let sTr := tr1.sum
    let plusDi : ℚ := if 0 < sTr then pd1.sum / sTr * 100 else 0
    let minusDi : ℚ := if 0 < sTr then md1.sum / sTr * 100 else 0
    let diSum := plusDi + minusDi
    let dx : ℚ := if 0 < diSum then |plusDi - minusDi| / diSum * 100 else 0
    let dx0 := s1.dxValues ++ [dx]
    let dx1 := if s1.period < dx0.length then dx0.tail else dx0
    let adxV := if dx1.length = s1.period then some (dx1.sum / s1.period)
                else s1.adxValue
    let s2 := { s1 with plusDm := pd1, minusDm := md1, tr := tr1,
                        plusDi := some plusDi, minusDi := some minusDi,
                        dxValues := dx1, adxValue := adxV }
    (s2, adxV, some plusDi, some minusDi)
  else
    let s2 := { s1 with plusDm := pd1, minusDm := md1, tr := tr1 }
    (s2, s1.adxValue, s1.plusDi, s1.minusDi)

def ADX.pushList (s : ADX) (bars : List (ℚ × ℚ × ℚ)) : ADX :=
  bars.foldl (fun st b => (st.push b.1 b.2.1 b.2.2).1) s

/-- Invariant of the ADX state after `k` pushes with period `N ≥ 1`: the
buffer lengths ( `tr` stays one element behind and `dx_values` only starts
filling at push `N`), and the availability of the DI/ADX components. -/
def AdxInv (N k : ℕ) (s : ADX) : Prop :=
  s.period = N ∧
  s.plusDm.length = min k N ∧
  s.minusDm.length = min k N ∧
  s.tr.length = min (k - 1) (N - 1) ∧
  s.dxValues.length = min (k - (N - 1)) N ∧
  (s.plusDi = none ↔ k < N) ∧
  (s.minusDi = none ↔ k < N) ∧
  (s.adxValue = none ↔ k < 2 * N - 1)

/-! ## StrategyStats (`strategy_stats.py`) -/

/-- `trades[-1]` of a non-empty list (call sites guard on non-emptiness). -/
def lastTrade (l : List Trade) : Trade := l.getLast?.getD ⟨0, 0, 0, 0⟩

def headTrade (l : List Trade) : Trade := l.head?.getD ⟨0, 0, 0, 0⟩

/-- `_calculate_trading_periods`: the total period in days is
`(trades[-1].exit_date - trades[0].entry_date).days + 1` (0 for an empty
trade list). -/
def totalDays (l : List Trade) : ℤ :=
  if l = [] then 0 else (lastTrade l).exitDate - (headTrade l).entryDate + 1

/-- `years_invested = total_days / 365.25` (and `365.25 = 1461/4` exactly). -/
def yearsInvested (l : List Trade) : ℚ :=
  if l = [] then 0 else (totalDays l : ℚ) / (1461 / 4)

/-- One step of the `_calculate_investment_returns` loop over
`(current_capital, total_gain, total_loss)`. -/
def pnlStep (acc : ℚ × ℚ × ℚ) (t : Trade) : ℚ × ℚ × ℚ :=
  let amt := acc.1 * (t.profitPct / 100)
  (acc.1 + amt,
   if 0 < amt then acc.2.1 + amt else acc.2.1,
   if 0 < amt then acc.2.2 else acc.2.2 + |amt|)

def finalCapital (init : ℚ) (l : List Trade) : ℚ :=
  (l.foldl pnlStep (init, 0, 0)).1

def totalGain (init : ℚ) (l : List Trade) : ℚ :=
  (l.foldl pnlStep (init, 0, 0)).2.1

def totalLoss (init : ℚ) (l : List Trade) : ℚ :=
  (l.foldl pnlStep (init, 0, 0)).2.2

/-- `cagr`: `(pow(final/init, 1/years) - 1) * 100` when `years_invested > 0`,
else `0`. -/
noncomputable def cagr (init : ℚ) (l : List Trade) : ℝ :=
  if 0 < yearsInvested l then
    (((finalCapital init l / init : ℚ) : ℝ) ^ ((1 : ℝ) / (yearsInvested l : ℚ)) - 1) * 100
  else 0

/-- `_calculate_profit_factor`: `total_gain / total_loss` guarded by
`total_loss != 0`; `none` stands for the `float('inf')` marker. -/
def profitFactor (init : ℚ) (l : List Trade) : Option ℚ :=
  if totalLoss init l ≠ 0 then some (totalGain init l / totalLoss init l)
  else none

/-- `_generate_equity_curve`: `initial_investment` followed by the
compounding products `equity * (1 + profit_pct/100)`. -/
def equityCurve (init : ℚ) (l : List Trade) : List ℚ :=
  l.scanl (fun e t => e * (1 + t.profitPct / 100)) init

/-- The `(running_max - equity) / running_max * 100` series, carrying the
running maximum `m` (numpy maximum.accumulate started at the curve head). -/
def ddFrom (m : ℚ) : List ℚ → List ℚ
  | [] => []
  | c :: cs => (max m c - c) / max m c * 100 :: ddFrom (max m c) cs

/-- `np.max` over a list (the call sites pass non-empty lists). -/
def npMax : List ℚ → ℚ
  | [] => 0
  | x :: xs => xs.foldl max x

/-- `_calculate_max_drawdown`: 0 for no trades, else the maximum drawdown
over the equity curve. -/
def maxDrawdown (init : ℚ) (l : List Trade) : ℚ :=
  if l = [] then 0
  else
    let curve := equityCurve init l
    npMax (ddFrom (curve.headI) curve)

/-! ## Shared simulation helpers -/

/-- Python truthiness of an optional number: `None` and `0` are falsy.  The
warm-up guards `if not all([...])` in both strategies rely on exactly this. -/
def truthy : Option ℚ → Bool
  | none => false
  | some v => decide (v ≠ 0)

/-- `l[-1]` in Python (the call sites have non-empty lists). -/
def pyLast (d : α) (l : List α) : α := l.getLast?.getD d

/-- `l[i-1]` in Python for a loop index `i : ℕ`: at `i = 0` the index `-1`
wraps around to the LAST element (this happens in `strategy_daily_5ma.py`,
whose bar loop starts at 0). -/
def pyPrev (d : α) (l : List α) (i : ℕ) : α :=
  if i = 0 then pyLast d l else l.getD (i - 1) d

/-! ## TrendEmaStrategy (`strategy_daily_ema_trend.py`) -/

structure TrendState where
  inTrade : Bool
  entryDate : Option ℤ
  entryPrice : Option ℚ
  coolingOffUntil : Option ℕ
  trades : List Trade
  deriving DecidableEq, Repr

def TrendState.init : TrendState := ⟨false, none, none, none, []⟩

/-- `self.cooling_period` of `TrendEmaStrategy` (set to 0 in `__init__`). -/
def trendCoolingPeriod : ℕ := 0

/-- `self.max_loss_pct` of `TrendEmaStrategy`. -/
def trendMaxLossPct : ℚ := 5

/-- One iteration of the `TrendEmaStrategy.run` bar loop at index `i`.
`e5, e10, e20, e200` are the per-bar `get_ema()` series. -/
def trendStep (dates : List ℤ) (closes lows : List ℚ)
    (e5 e10 e20 e200 : List (Option ℚ)) (st : TrendState) (i : ℕ) :
    TrendState :=
  let price := closes.getD i 0
  let date := dates.getD i 0
  let low := lows.getD i 0
  if ¬(truthy (e5.getD i none) ∧ truthy (e10.getD i none) ∧
       truthy (e20.getD i none) ∧ truthy (e200.getD i none)) then st
  else if st.inTrade then
    let entry := st.entryPrice.getD 0
    let profit := (price - entry) / entry * 100
    let stopLossExit := profit ≤ -trendMaxLossPct
    let v20 := (e20.getD i none).getD 0
    let v200 := (e200.getD i none).getD 0
    let exitTriggered :=
      stopLossExit ∨ (if v20 < v200 then price < v20 else price < v200)
    if exitTriggered then
      { st with
        trades := st.trades ++ [⟨st.entryDate.getD 0, entry, date, price⟩],
        inTrade := false,
        coolingOffUntil :=
          if stopLossExit then some (i + trendCoolingPeriod)
          else st.coolingOffUntil }
    else st
  else if (match st.coolingOffUntil with
           | some c => decide (i < c)
           | none => false) then st
  else
    let v5 := (e5.getD i none).getD 0
    let v10 := (e10.getD i none).getD 0
    if low > v5 ∧ v5 > v10 ∧
       closes.getD (i - 1) 0 > (e5.getD (i - 1) none).getD 0 then
      { st with inTrade := true, entryDate := some date,
                entryPrice := some price }
    else st

/-- The state after the `for i in range(200, len(closes))` loop of
`TrendEmaStrategy.run`. -/
def trendLoopState (dates : List ℤ) (closes lows : List ℚ) : TrendState :=
  let e5 := EMA.getSeries (EMA.init 5) closes
  let e10 := EMA.getSeries (EMA.init 10) closes
  let e20 := EMA.getSeries (EMA.init 20) closes
  let e200 := EMA.getSeries (EMA.init 200) closes
  (List.range' 200 (closes.length - 200)).foldl
    (trendStep dates closes lows e5 e10 e20 e200) TrendState.init

/-- The trade list produced by `TrendEmaStrategy.run`: the loop trades, plus
a forced close at the last bar when the loop ends in a trade. -/
def trendRun (dates : List ℤ) (closes lows : List ℚ) : List Trade :=
  let f := trendLoopState dates closes lows
  if f.inTrade then
    f.trades ++ [⟨f.entryDate.getD 0, f.entryPrice.getD 0,
                  pyLast 0 dates, pyLast 0 closes⟩]
  else f.trades

/-! ## Daily 5-EMA strategy (`strategy_daily_5ma.py`) -/

structure S5State where
  inTrade : Bool
  ema5Value : Option ℚ
  ema10Value : Option ℚ
  ema21Value : Option ℚ
  ema51Value : Option ℚ
  ema150Value : Option ℚ
  ema200Value : Option ℚ
  adxValue : Option ℚ
  baseCountField : ℕ
  baseCounter : BaseCounter
  adxState : ADX
  entryDate : Option ℤ
  entryPrice : Option ℚ
  stopLossPrice : Option ℚ
  slHit : Bool
  use51MaStopLoss : Bool
  currentInvestment : ℚ
  trades : List Trade
  consecutiveLoss : ℕ
  tradeCoolOff : ℕ
  deriving DecidableEq, Repr

def S5State.init (initialInvestment : ℚ) : S5State :=
  ⟨false, none, none, none, none, none, none, none, 0,
   BaseCounter.init, ADX.init 14, none, none, none, false, true,
   initialInvestment, [], 0, 0⟩

/-- `Strategy.reset_state` (trades, investment, the base counter object and
the cool-off counters are untouched). -/
def S5State.resetState (st : S5State) : S5State :=
  { st with ema5Value := none, ema10Value := none, ema21Value := none,
            ema51Value := none, ema150Value := none, ema200Value := none,
            baseCountField := 0, adxValue := none, entryPrice := none,
            entryDate := none, stopLossPrice := none,
            use51MaStopLoss := true, slHit := false }

/-- `Strategy.should_exit_trade`; also returns the state because a stop-loss
exit sets `self.sl_hit`. -/
def S5State.shouldExitTrade (st : S5State) (close low : ℚ) :
    Bool × S5State :=
  if low ≤ st.stopLossPrice.getD 0 then (true, { st with slHit := true })
  else if st.baseCounter.isBaseCounting then
    (if st.baseCounter.getBaseCount ≤ 2 then
       decide (close < st.ema200Value.getD 0)
     else decide (close < st.ema51Value.getD 0), st)
  else if st.use51MaStopLoss then (decide (close < st.ema51Value.getD 0), st)
  else (decide (close < st.ema10Value.getD 0), st)

/-- `Strategy.should_enter_trade` (its `yesterday_low` parameter is unused). -/
def S5State.shouldEnterTrade (st : S5State)
    (high low close yesterdayClose : ℚ) : Bool :=
  let ma5 := st.ema5Value.getD 0
  let adx := st.adxValue.getD 0
  let top75 := low + (high - low) * (3/4)
  decide (yesterdayClose > ma5 ∧ low ≥ ma5 ∧ close > ma5 ∧ adx ≥ 15 ∧
          (close ≥ top75 ∨ close > yesterdayClose))

/-- `Strategy.should_move_stop_loss`. -/
def S5State.shouldMoveStopLoss (st : S5State) (close : ℚ) :
    Bool × Option ℚ :=
  if st.stopLossPrice.getD 0 > st.entryPrice.getD 0 then (false, none)
  else if (close - st.entryPrice.getD 0) / st.entryPrice.getD 0 > 1/20 then
    (true, st.entryPrice)
  else (false, none)

/-- `Strategy.exit_trade`: appends the trade and marks the new investment. -/
def S5State.exitTrade (st : S5State) (exitDate : ℤ) (exitPrice : ℚ) :
    S5State :=
  let entry := st.entryPrice.getD 0
  let q := st.currentInvestment / entry
  { st with currentInvestment := q * exitPrice,
            trades := st.trades ++
              [⟨st.entryDate.getD 0, entry, exitDate, exitPrice⟩] }

/-- One iteration of the `for i in range(0, len(closes))` loop of
`Strategy.run`.  `m5 .. m200` are the recorded `push` RETURN series. -/
def s5Step (dates : List ℤ) (closes lows highs : List ℚ)
    (m5 m10 m21 m51 m150 m200 : List (Option ℚ)) (st : S5State) (i : ℕ) :
    S5State :=
  let date := dates.getD i 0
  let close := closes.getD i 0
  let low := lows.getD i 0
  let high := highs.getD i 0
  let yesterdayClose := pyPrev 0 closes i
  let ar := st.adxState.push high low close
  let st := { st with adxState := ar.1 }
  let adxOut := ar.2.1
  if 0 < st.tradeCoolOff then { st with tradeCoolOff := st.tradeCoolOff - 1 }
  else if ¬(truthy adxOut ∧ truthy (m5.getD i none) ∧
            truthy (m10.getD i none) ∧ truthy (m21.getD i none) ∧
            truthy (m51.getD i none) ∧ truthy (m150.getD i none) ∧
            truthy (m200.getD i none)) then st
  else
    let st := { st with
      ema5Value := m5.getD i none, ema10Value := m10.getD i none,
      ema21Value := m21.getD i none, ema51Value := m51.getD i none,
      ema150Value := m150.getD i none, ema200Value := m200.getD i none,
      adxValue := adxOut, baseCountField := st.baseCounter.getBaseCount }
    let st := { st with
      baseCounter := st.baseCounter.push date close
        ((m51.getD i none).getD 0) ((m150.getD i none).getD 0)
        ((m200.getD i none).getD 0) }
    if st.inTrade then
      let mv := st.shouldMoveStopLoss close
      let st := if mv.1 then { st with stopLossPrice := mv.2 } else st
      let st :=
        if ¬st.use51MaStopLoss then
          { st with use51MaStopLoss :=
              decide (close ≥ st.ema51Value.getD 0 ∧
                      st.ema5Value.getD 0 > st.ema51Value.getD 0) }
        else st
      let ex := st.shouldExitTrade close low
      let st := ex.2
      if ¬ex.1 then st
      else
        let st := { st with inTrade := false }
        let exitPrice := if st.slHit then st.stopLossPrice.getD 0 else close
        let st := st.exitTrade date exitPrice
        let entry := st.entryPrice.getD 0
        let profitPercent := (close - entry) / entry * 100
        let holdingDays := date - st.entryDate.getD 0
        let st :=
          if profitPercent < 1 then
            let cl := st.consecutiveLoss + 1
            { st with consecutiveLoss := cl,
                      tradeCoolOff := if 3 ≤ cl then 10 else st.tradeCoolOff }
          else
            { st with consecutiveLoss := 0,
                      tradeCoolOff :=
                        if profitPercent > 50 ∨ holdingDays > 200 then 10
                        else 0 }
        st.resetState
    else
      if ¬st.shouldEnterTrade high low close yesterdayClose then st
      else
        { st with inTrade := true, entryDate := some date,
                  entryPrice := some close,
                  stopLossPrice := some (close - close * 2 / 100),
                  use51MaStopLoss :=
                    decide (close ≥ st.ema51Value.getD 0 ∧
                            st.ema5Value.getD 0 > st.ema51Value.getD 0) }

/-- The state after the bar loop of `Strategy.run` in
`strategy_daily_5ma.py`.  Unlike `TrendEmaStrategy.run`, nothing follows the
loop: the function directly builds `StrategyStats(self.trades, ...)`, so an
open position at series end is never appended to the trade list. -/
def s5Run (initialInvestment : ℚ) (dates : List ℤ)
    (closes lows highs : List ℚ) : S5State :=
  let m5 := EMA.outputs (EMA.init 5) closes
  let m10 := EMA.outputs (EMA.init 10) closes
  let m21 := EMA.outputs (EMA.init 21) closes
  let m51 := EMA.outputs (EMA.init 51) closes
  let m150 := EMA.outputs (EMA.init 150) closes
  let m200 := EMA.outputs (EMA.init 200) closes
  (List.range closes.length).foldl
    (s5Step dates closes lows highs m5 m10 m21 m51 m150 m200)
    (S5State.init initialInvestment)

/-! ## A concrete 203-bar series driving both simulators into a trade

200 flat bars at close 100 followed by closes 101, 102, 103; every bar has
`high = close + 1` and `low = close - 1`, dates are the day numbers
0 .. 202.  Both strategies enter a long position before the series ends and
are still in it after the last bar. -/

def cexCloses : List ℚ := List.replicate 200 100 ++ [101, 102, 103]

def cexHighs : List ℚ := cexCloses.map (fun c => c + 1)

def cexLows : List ℚ := cexCloses.map (fun c => c - 1)

def cexDates : List ℤ := (List.range 203).map Int.ofNat

/-! Closed forms of the EMA series over the test bars: the `push`-return
series used by the 5-EMA strategy (`arrN`) and the `get_ema()` series used
by the trend strategy (`garrN`). -/

def arr5 : List (Option ℚ) :=
  List.replicate 5 none ++ List.replicate 195 (some 100) ++
    [some (301/3), some (908/9), some (2743/27)]

def arr10 : List (Option ℚ) :=
  List.replicate 10 none ++ List.replicate 190 (some 100) ++
    [some (1102/11), some (12162/121), some (134384/1331)]

def arr21 : List (Option ℚ) :=
  List.replicate 21 none ++ List.replicate 179 (some 100) ++
    [some (1101/11), some (12132/121), some (133783/1331)]

def arr51 : List (Option ℚ) :=
  List.replicate 51 none ++ List.replicate 149 (some 100) ++
    [some (2601/26), some (67677/676), some (1761553/17576)]

def arr150 : List (Option ℚ) :=
  List.replicate 150 none ++ List.replicate 50 (some 100) ++
    [some (15102/151), some (2281002/22801), some (344566304/3442951)]

def arr200 : List (Option ℚ) :=
  List.replicate 200 none ++
    [some (20102/201), some (4041302/40401), some (812541704/8120601)]

def garr5 : List (Option ℚ) :=
  List.replicate 4 none ++ List.replicate 196 (some 100) ++
    [some (301/3), some (908/9), some (2743/27)]

def garr10 : List (Option ℚ) :=
  List.replicate 9 none ++ List.replicate 191 (some 100) ++
    [some (1102/11), some (12162/121), some (134384/1331)]

def garr20 : List (Option ℚ) :=
  List.replicate 19 none ++ List.replicate 181 (some 100) ++
    [some (2102/21), some (44222/441), some (931064/9261)]

def garr200 : List (Option ℚ) :=
  List.replicate 199 none ++
    [some 100, some (20102/201), some (4041302/40401), some (812541704/8120601)]

/-- The bar-loop step of the 5-EMA strategy on the test series, with the
EMA series in closed form. -/
def s5StepCex : S5State → ℕ → S5State :=
  s5Step cexDates cexCloses cexLows cexHighs arr5 arr10 arr21 arr51 arr150 arr200

/-- The ADX(14) state reached on the flat prefix of the test series; it is a
fixed point of further flat bars. -/
def adxFlatSat : ADX :=
  ⟨14, some 101, some 99, List.replicate 14 0, List.replicate 14 0,
   List.replicate 13 2, some 0, some 0, some 0, List.replicate 14 0⟩

/-- The 5-EMA strategy state throughout the warm-up of the test series. -/
def s5Fix : S5State := { S5State.init 100000 with adxState := adxFlatSat }

/-- The 5-EMA strategy state after the last test bar: still in a trade
entered at bar 202, with an empty trade list. -/
def s5Final : S5State where
  inTrade := true
  ema5Value := some (2743/27)
  ema10Value := some (134384/1331)
  ema21Value := some (133783/1331)
  ema51Value := some (1761553/17576)
  ema150Value := some (344566304/3442951)
  ema200Value := some (812541704/8120601)
  adxValue := some (150/7)
  baseCountField := 0
  baseCounter :=
    ⟨⟨20, [101, 102, 103]⟩, ⟨63, [101, 102, 103]⟩, 0, 101, true, 200, true⟩
  adxState :=
    ⟨14, some 104, some 102,
     List.replicate 11 0 ++ [1, 1, 1], List.replicate 14 0,
     List.replicate 13 2, some (150/13), some 0, some (150/7),
     List.replicate 11 0 ++ [100, 100, 100]⟩
  entryDate := some 202
  entryPrice := some 103
  stopLossPrice := some (5047/50)
  slHit := false
  use51MaStopLoss := true
  currentInvestment := 100000
  trades := []
  consecutiveLoss := 0
  tradeCoolOff := 0

/-- The trend strategy loop state after the last test bar: still in a trade
entered at bar 201, with an empty trade list. -/
def trendFinal : TrendState := ⟨true, some 201, some 102, none, []⟩

/-! ## Concrete evaluation of the two simulators on the test series

`Rat` arithmetic is `@[irreducible]` by default, which blocks `decide`;
it is made semireducible locally to this section.  The 203-bar runs are
evaluated in chunks so that each reduction stays shallow: the warm-up
prefix reaches the fixed point `s5Fix` after 27 bars and stays there
until bar 199. -/

section ConcreteEvaluation

attribute [local semireducible] Rat.add Rat.mul Rat.sub Rat.inv

set_option maxRecDepth 10000

theorem arr5_eval : EMA.outputs (EMA.init 5) cexCloses = arr5 := by decide

theorem arr10_eval : EMA.outputs (EMA.init 10) cexCloses = arr10 := by decide

theorem arr21_eval : EMA.outputs (EMA.init 21) cexCloses = arr21 := by decide

theorem arr51_eval : EMA.outputs (EMA.init 51) cexCloses = arr51 := by decide

theorem arr150_eval : EMA.outputs (EMA.init 150) cexCloses = arr150 := by decide

theorem arr200_eval : EMA.outputs (EMA.init 200) cexCloses = arr200 := by decide

theorem garr5_eval : EMA.getSeries (EMA.init 5) cexCloses = garr5 := by decide

theorem garr10_eval : EMA.getSeries (EMA.init 10) cexCloses = garr10 := by decide

theorem garr20_eval : EMA.getSeries (EMA.init 20) cexCloses = garr20 := by decide

theorem garr200_eval : EMA.getSeries (EMA.init 200) cexCloses = garr200 := by
  decide

theorem cexCloses_length : cexCloses.length = 203 := by decide

/-- Full evaluation of the 5-EMA strategy run on the test series: the loop
ends still in a trade (entered at bar 202) and the trade list is empty. -/
theorem s5Run_cex_eval :
    s5Run 100000 cexDates cexCloses cexLows cexHighs = s5Final := by
  have c0 : (List.range' 0 27).foldl s5StepCex (S5State.init 100000) = s5Fix := by
    decide
  have c1 : (List.range' 27 27).foldl s5StepCex s5Fix = s5Fix := by decide
  have c2 : (List.range' 54 27).foldl s5StepCex s5Fix = s5Fix := by decide
  have c3 : (List.range' 81 27).foldl s5StepCex s5Fix = s5Fix := by decide
  have c4 : (List.range' 108 27).foldl s5StepCex s5Fix = s5Fix := by decide
  have c5 : (List.range' 135 27).foldl s5StepCex s5Fix = s5Fix := by decide
  have c6 : (List.range' 162 27).foldl s5StepCex s5Fix = s5Fix := by decide
  have c7 : (List.range' 189 11).foldl s5StepCex s5Fix = s5Fix := by decide
  have c8 : (List.range' 200 3).foldl s5StepCex s5Fix = s5Final := by decide
  have hsplit : List.range 203 =
      List.range' 0 27 ++ List.range' 27 27 ++ List.range' 54 27 ++
      List.range' 81 27 ++ List.range' 108 27 ++ List.range' 135 27 ++
      List.range' 162 27 ++ List.range' 189 11 ++ List.range' 200 3 := by
    decide
  simp only [s5Run]
  rw [arr5_eval, arr10_eval, arr21_eval, arr51_eval, arr150_eval, arr200_eval,
      cexCloses_length, hsplit,
      show s5Step cexDates cexCloses cexLows cexHighs arr5 arr10 arr21 arr51
        arr150 arr200 = s5StepCex from rfl]
  simp only [List.foldl_append]
  rw [c0, c1, c2, c3, c4, c5, c6, c7, c8]

/-- Full evaluation of the trend strategy bar loop on the test series: it
ends still in a trade (entered at bar 201) with an empty trade list. -/
theorem trendLoop_cex_eval :
    trendLoopState cexDates cexCloses cexLows = trendFinal := by
  simp only [trendLoopState]
  rw [garr5_eval, garr10_eval, garr20_eval, garr200_eval, cexCloses_length]
  decide

end ConcreteEvaluation

/-! ## C5: the price-below-ema200 reset of the base counter -/

/-- C5: pushing a price strictly below ema200 resets the base counter
unconditionally: afterwards `get_base_count()` is 0 and
`is_base_counting()` is false, and the resulting state is exactly the reset
state (with only the two rolling trackers updated), so no other transition
rule is applied on that push. -/
theorem baseCounter_reset_below_ema200 (s : BaseCounter) (date : ℤ)
    (price e50 e150 e200 : ℚ) (h : price < e200) :
    (s.push date price e50 e150 e200).getBaseCount = 0 ∧
    (s.push date price e50 e150 e200).isBaseCounting = false ∧
    s.push date price e50 e150 e200 =
      ⟨(s.monthlyHigh.push price).1, (s.threeMonthHigh.push price).1,
       0, 0, false, 0, false⟩ := by
  refine ⟨?_, ?_, ?_⟩ <;>
    simp [BaseCounter.push, BaseCounter.resetBase, BaseCounter.getBaseCount,
      BaseCounter.isBaseCounting, h]

/-! ## C8: the boolean lookback counter keeps exact counts -/

theorem blc_pushList_length (N : ℕ) (hN : 1 ≤ N) (vs : List Bool) :
    ∀ s : BooleanLookbackCounter, s.lookbackPeriod = N → s.values.length ≤ N →
      (s.pushList vs).values.length = min (s.values.length + vs.length) N := by
  induction vs with
  | nil =>
      intro s _ hl
      simp only [BooleanLookbackCounter.pushList, List.foldl_nil,
        List.length_nil]
      omega
  | cons v vs ih =>
      intro s hp hl
      have hstep : (s.pushList (v :: vs)) = (s.push v).pushList vs := rfl
      have h1 : (s.push v).lookbackPeriod = N := by
        simp [BooleanLookbackCounter.push, hp]
      have h2 : (s.push v).values.length =
          if s.values.length = N then N else s.values.length + 1 := by
        by_cases hc : s.values.length = N
        · simp [BooleanLookbackCounter.push, dequePush, hp, hc]
          omega
        · simp [BooleanLookbackCounter.push, dequePush, hp, hc]
      rw [hstep, ih (s.push v) h1 (by rw [h2]; split <;> omega), h2]
      split <;> (rename_i hc; simp [List.length_cons]; omega)

/-- C8: after any sequence of pushes into `BooleanLookbackCounter(N)` with
`N ≥ 1`, `count_true() + count_false()` equals `min(pushes_so_far, N)`. -/
theorem boolCounter_count_sum (N : ℕ) (hN : 1 ≤ N) (vs : List Bool) :
    ((BooleanLookbackCounter.init N).pushList vs).countTrue +
      ((BooleanLookbackCounter.init N).pushList vs).countFalse =
      min vs.length N := by
  have hlen := blc_pushList_length N hN vs (BooleanLookbackCounter.init N)
    rfl (by simp [BooleanLookbackCounter.init])
  have hc : ((BooleanLookbackCounter.init N).pushList vs).values.count true ≤
      ((BooleanLookbackCounter.init N).pushList vs).values.length :=
    List.count_le_length _ _
  simp only [BooleanLookbackCounter.countTrue, BooleanLookbackCounter.countFalse,
    BooleanLookbackCounter.init, List.length_nil] at *
  omega

/-! ## EMA push shape lemmas (used for C4 and C10) -/

theorem EMA.push_eq_accum (s : EMA) (p : ℚ) (h : s.prices.length + 1 < s.days) :
    s.push p = (⟨s.days, s.prices ++ [p], s.currentEma⟩, none) := by
  unfold EMA.push
  rw [if_pos (by simp; omega)]

theorem EMA.push_eq_seed (s : EMA) (p : ℚ) (h : s.prices.length + 1 = s.days) :
    s.push p =
      (⟨s.days, s.prices ++ [p], some ((s.prices ++ [p]).sum / s.days)⟩, none) := by
  unfold EMA.push
  rw [if_neg (by simp; omega), if_pos (by simp; omega)]

theorem EMA.push_eq_recur (s : EMA) (p w : ℚ) (hw : s.currentEma = some w)
    (h : s.days < s.prices.length + 1) :
    s.push p =
      (⟨s.days, s.prices ++ [p], some ((p - w) * (2 / (s.days + 1)) + w)⟩,
       some ((p - w) * (2 / (s.days + 1)) + w)) := by
  unfold EMA.push
  rw [if_neg (by simp; omega), if_neg (by simp; omega), hw]

theorem ema_pushList_append (s : EMA) (l : List ℚ) (p : ℚ) :
    EMA.pushList s (l ++ [p]) = ((EMA.pushList s l).push p).1 := by
  simp [EMA.pushList, List.foldl_append]

/-! ## C4: EMA of N identical values is exactly that value -/

theorem ema_const_state (N : ℕ) (hN : 1 ≤ N) (V : ℚ) (k : ℕ) :
    EMA.pushList (EMA.init N) (List.replicate k V) =
      ⟨N, List.replicate k V, if k < N then none else some V⟩ := by
  induction k with
  | zero =>
      simp only [List.replicate_zero, EMA.pushList, List.foldl_nil, EMA.init]
      rw [if_pos (by omega)]
  | succ k ih =>
      rw [List.replicate_succ', ema_pushList_append, ih]
      rcases Nat.lt_trichotomy (k + 1) N with h1 | h1 | h1
      · rw [EMA.push_eq_accum _ _ (by simp; omega)]
        dsimp only
        rw [if_pos (show k < N by omega), if_pos h1]
      · rw [EMA.push_eq_seed _ _ (by simp; omega)]
        dsimp only
        rw [if_neg (show ¬ k + 1 < N by omega)]
        have hsum : (List.replicate k V ++ [V]).sum = ((k : ℚ) + 1) * V := by
          simp [List.sum_replicate, nsmul_eq_mul]
          ring
        have hkn : ((k : ℚ) + 1) = (N : ℚ) := by exact_mod_cast h1
        rw [hsum, hkn,
          mul_div_cancel_left₀ V (Nat.cast_ne_zero.mpr (by omega))]
      · rw [if_neg (show ¬ k < N by omega)]
        rw [EMA.push_eq_recur _ _ V rfl (by simp; omega)]
        dsimp only
        rw [if_neg (show ¬ k + 1 < N by omega), sub_self, zero_mul, zero_add]

/-- C4: for `N ≥ 1`, `get_ema()` is the unavailable marker before the N-th
push of the constant value `V`, and equals exactly `V` from the N-th push on
(the seed is the simple mean of N copies of `V`, and later pushes of `V`
leave the value fixed). -/
theorem ema_const_fixed_point (N : ℕ) (hN : 1 ≤ N) (V : ℚ) (k : ℕ) :
    (k < N → (EMA.pushList (EMA.init N) (List.replicate k V)).getEma = none) ∧
    (N ≤ k → (EMA.pushList (EMA.init N) (List.replicate k V)).getEma = some V) := by
  rw [ema_const_state N hN V k]
  constructor
  · intro h; simp [EMA.getEma, h]
  · intro h; simp [EMA.getEma]; omega

/-! ## C10: the push return value lags get_ema by one bar -/

theorem ema_pushList_state (N : ℕ) (hN : 1 ≤ N) (ps : List ℚ) :
    (EMA.pushList (EMA.init N) ps).days = N ∧
    (EMA.pushList (EMA.init N) ps).prices = ps ∧
    ((EMA.pushList (EMA.init N) ps).currentEma = none ↔ ps.length < N) := by
  induction ps using List.reverseRecOn with
  | nil =>
      refine ⟨rfl, rfl, ?_⟩
      show (none : Option ℚ) = none ↔ (0 : ℕ) < N
      exact iff_of_true rfl (by omega)
  | append_singleton ps p ih =>
      obtain ⟨hd, hp, he⟩ := ih
      rw [ema_pushList_append]
      rcases Nat.lt_trichotomy (ps.length + 1) N with h1 | h1 | h1
      · rw [EMA.push_eq_accum _ _ (by rw [hd, hp]; omega)]
        refine ⟨hd, ?_, ?_⟩
        · dsimp only; rw [hp]
        · dsimp only
          rw [he]
          simp only [List.length_append, List.length_cons, List.length_nil]
          omega
      · rw [EMA.push_eq_seed _ _ (by rw [hd, hp]; omega)]
        refine ⟨hd, ?_, ?_⟩
        · dsimp only; rw [hp]
        · dsimp only
          exact iff_of_false (by simp)
            (by simp only [List.length_append, List.length_cons,
                  List.length_nil]; omega)
      · obtain ⟨w, hw⟩ : ∃ w, (EMA.pushList (EMA.init N) ps).currentEma = some w := by
          rcases hcur : (EMA.pushList (EMA.init N) ps).currentEma with _ | w
          · exact absurd (he.mp hcur) (by omega)
          · exact ⟨w, rfl⟩
        rw [EMA.push_eq_recur _ _ w hw (by rw [hd, hp]; omega)]
        refine ⟨hd, ?_, ?_⟩
        · dsimp only; rw [hp]
        · dsimp only
          exact iff_of_false (by simp)
            (by simp only [List.length_append, List.length_cons,
                  List.length_nil]; omega)

/-- C10: for `N ≥ 2`, the N-th `push` still returns `None` even though it
seeds the EMA (only `get_ema()` exposes the mean of the first N prices at
that point), and the first push whose RETURN value carries the EMA is push
`N + 1`.  A caller recording push returns (as `strategy_daily_5ma.py` does)
therefore sees the EMA one bar later than a `get_ema()` caller. -/
theorem ema_push_return_lag (N : ℕ) (hN : 2 ≤ N) (ps : List ℚ)
    (hlen : ps.length + 1 = N) (p q : ℚ) :
    (EMA.pushList (EMA.init N) ps).getEma = none ∧
    ((EMA.pushList (EMA.init N) ps).push p).2 = none ∧
    ((EMA.pushList (EMA.init N) ps).push p).1.getEma =
      some ((ps ++ [p]).sum / N) ∧
    (∃ v, (((EMA.pushList (EMA.init N) ps).push p).1.push q).2 = some v) := by
  obtain ⟨hd, hp, he⟩ := ema_pushList_state N (by omega) ps
  have hseed := EMA.push_eq_seed (EMA.pushList (EMA.init N) ps) p
    (by rw [hd, hp]; omega)
  refine ⟨?_, ?_, ?_, ?_⟩
  · show (EMA.pushList (EMA.init N) ps).currentEma = none
    exact he.mpr (by omega)
  · rw [hseed]
  · rw [hseed]
    show some ((((EMA.init N).pushList ps).prices ++ [p]).sum /
        (((EMA.init N).pushList ps).days : ℚ)) = some ((ps ++ [p]).sum / (N : ℚ))
    rw [hp, hd]
  · rw [hseed]
    have hrec := EMA.push_eq_recur
      (⟨((EMA.init N).pushList ps).days, ((EMA.init N).pushList ps).prices ++ [p],
        some ((((EMA.init N).pushList ps).prices ++ [p]).sum /
          (((EMA.init N).pushList ps).days : ℚ))⟩ : EMA) q
      ((((EMA.init N).pushList ps).prices ++ [p]).sum /
        (((EMA.init N).pushList ps).days : ℚ))
      rfl
      (by dsimp only
          rw [hd, hp]
          simp only [List.length_append, List.length_cons, List.length_nil]
          omega)
    exact ⟨_, by rw [hrec]⟩

/-! ## C7: the profit factor guard -/

theorem pnl_loss_nonneg (l : List Trade) :
    ∀ acc : ℚ × ℚ × ℚ, 0 ≤ acc.2.2 → 0 ≤ (l.foldl pnlStep acc).2.2 := by
  induction l with
  | nil => intro acc h; simpa using h
  | cons t ts ih =>
      intro acc h
      rw [List.foldl_cons]
      apply ih
      unfold pnlStep
      dsimp only
      split
      · exact h
      · exact add_nonneg h (abs_nonneg _)

/-- C7: the profit factor equals gross gain over gross loss accumulated
along the compounding capital sequence, and is the infinite marker exactly
when the accumulated gross loss (which is always nonnegative) is zero —
never a division fault. -/
theorem profitFactor_guard (init : ℚ) (l : List Trade) :
    (profitFactor init l = none ↔ totalLoss init l = 0) ∧
    (totalLoss init l ≠ 0 →
      profitFactor init l = some (totalGain init l / totalLoss init l)) ∧
    0 ≤ totalLoss init l := by
  refine ⟨?_, ?_, pnl_loss_nonneg l (init, 0, 0) le_rfl⟩ <;>
    · unfold profitFactor
      by_cases h : totalLoss init l = 0 <;> simp [h]

/-! ## C3: years invested and CAGR -/

theorem finalCapital_prod (l : List Trade) :
    ∀ acc : ℚ × ℚ × ℚ,
      (l.foldl pnlStep acc).1 =
        acc.1 * (l.map (fun t => 1 + t.profitPct / 100)).prod := by
  induction l with
  | nil => intro acc; simp
  | cons t ts ih =>
      intro acc
      rw [List.foldl_cons, ih, List.map_cons, List.prod_cons]
      have hstep : (pnlStep acc t).1 = acc.1 * (1 + t.profitPct / 100) := by
        unfold pnlStep; dsimp only; ring
      rw [hstep]; ring

/-- C3 (amended): for a non-empty trade list, `years_invested` is
`(last exit − first entry + 1) / 365.25` — the code adds one day to the
span — and CAGR is `((∏ (1 + pct/100))^(1/years) − 1) × 100` (the
compounded final capital over the initial investment) when
`years_invested > 0`, and 0 otherwise. -/
theorem stats_years_cagr (init : ℚ) (hinit : init ≠ 0) (l : List Trade)
    (hl : l ≠ []) :
    yearsInvested l =
      (((lastTrade l).exitDate - (headTrade l).entryDate + 1 : ℤ) : ℚ) * 4 / 1461 ∧
    (0 < yearsInvested l →
      cagr init l =
        ((((l.map (fun t => 1 + t.profitPct / 100)).prod : ℚ) : ℝ) ^
          ((1 : ℝ) / (yearsInvested l : ℝ)) - 1) * 100) ∧
    (yearsInvested l ≤ 0 → cagr init l = 0) := by
  refine ⟨?_, ?_, ?_⟩
  · unfold yearsInvested totalDays
    rw [if_neg hl, if_neg hl, div_div_eq_mul_div]
  · intro h
    unfold cagr
    rw [if_pos h]
    have hfc : finalCapital init l / init =
        (l.map (fun t => 1 + t.profitPct / 100)).prod := by
      unfold finalCapital
      rw [finalCapital_prod l (init, 0, 0)]
      exact mul_div_cancel_left₀ _ hinit
    rw [hfc]
  · intro h
    unfold cagr
    rw [if_neg (not_lt.mpr h)]

/-! ## C6: max drawdown is nonnegative, and zero exactly on a
non-decreasing equity curve -/

theorem ddFrom_nonneg (l : List ℚ) : ∀ m : ℚ, 0 < m → ∀ x ∈ ddFrom m l, 0 ≤ x := by
  induction l with
  | nil => intro m _ x hx; simp [ddFrom] at hx
  | cons c cs ih =>
      intro m hm x hx
      simp only [ddFrom] at hx
      rcases List.mem_cons.mp hx with h | h
      · subst h
        have hmc : 0 < max m c := lt_of_lt_of_le hm (le_max_left _ _)
        have h1 : c ≤ max m c := le_max_right _ _
        exact mul_nonneg (div_nonneg (by linarith) (le_of_lt hmc)) (by norm_num)
      · exact ih (max m c) (lt_of_lt_of_le hm (le_max_left _ _)) x h

theorem le_foldl_max (l : List ℚ) : ∀ a : ℚ, a ≤ l.foldl max a := by
  induction l with
  | nil => intro a; simp
  | cons x xs ih =>
      intro a
      rw [List.foldl_cons]
      exact le_trans (le_max_left a x) (ih (max a x))

theorem mem_le_foldl_max (l : List ℚ) : ∀ a x : ℚ, x ∈ l → x ≤ l.foldl max a := by
  induction l with
  | nil => intro a x hx; simp at hx
  | cons y ys ih =>
      intro a x hx
      rw [List.foldl_cons]
      rcases List.mem_cons.mp hx with h | h
      · subst h
        exact le_trans (le_max_right a x) (le_foldl_max ys (max a x))
      · exact ih (max a y) x h

theorem foldl_max_le (l : List ℚ) :
    ∀ a b : ℚ, a ≤ b → (∀ x ∈ l, x ≤ b) → l.foldl max a ≤ b := by
  induction l with
  | nil => intro a b h _; simpa using h
  | cons y ys ih =>
      intro a b h hall
      rw [List.foldl_cons]
      exact ih (max a y) b (max_le h (hall y (List.mem_cons_self y ys)))
        (fun x hx => hall x (List.mem_cons_of_mem y hx))

theorem ddFrom_all_zero_iff (l : List ℚ) : ∀ m : ℚ, 0 < m →
    ((∀ x ∈ ddFrom m l, x = 0) ↔ List.Chain (· ≤ ·) m l) := by
  induction l with
  | nil =>
      intro m _
      exact iff_of_true (by simp [ddFrom]) List.Chain.nil
  | cons c cs ih =>
      intro m hm
      have hmc : 0 < max m c := lt_of_lt_of_le hm (le_max_left _ _)
      simp only [ddFrom]
      rw [List.chain_cons]
      constructor
      · intro h
        have h0 : (max m c - c) / max m c * 100 = 0 :=
          h _ (List.mem_cons_self _ _)
        have h2 : (max m c - c) / max m c = 0 := by
          rcases mul_eq_zero.mp h0 with h' | h'
          · exact h'
          · norm_num at h'
        have h3 : max m c - c = 0 := by
          rcases div_eq_zero_iff.mp h2 with h' | h'
          · exact h'
          · exact absurd h' (ne_of_gt hmc)
        have hmle : m ≤ c := max_eq_right_iff.mp (sub_eq_zero.mp h3)
        have hmax : max m c = c := max_eq_right hmle
        rw [hmax] at h
        refine ⟨hmle, (ih c (lt_of_lt_of_le hm hmle)).mp ?_⟩
        intro x hx
        exact h x (List.mem_cons_of_mem _ hx)
      · rintro ⟨hmle, hch⟩
        have hmax : max m c = c := max_eq_right hmle
        rw [hmax]
        intro x hx
        rcases List.mem_cons.mp hx with h | h
        · subst h; rw [sub_self, zero_div, zero_mul]
        · exact (ih c (lt_of_lt_of_le hm hmle)).mpr hch x h

theorem npMax_dd_spec (R : List ℚ) (m : ℚ) (hm : 0 < m) :
    0 ≤ npMax (ddFrom m (m :: R)) ∧
    (npMax (ddFrom m (m :: R)) = 0 ↔ List.Chain (· ≤ ·) m R) := by
  have hdd : ddFrom m (m :: R) = 0 :: ddFrom m R := by
    simp [ddFrom, max_self, sub_self]
  have hnp : npMax (0 :: ddFrom m R) = (ddFrom m R).foldl max 0 := rfl
  rw [hdd, hnp]
  have hnn : ∀ x ∈ ddFrom m R, 0 ≤ x := ddFrom_nonneg R m hm
  refine ⟨le_foldl_max _ 0, ?_, ?_⟩
  · intro heq
    apply (ddFrom_all_zero_iff R m hm).mp
    intro x hx
    exact le_antisymm (heq ▸ mem_le_foldl_max (ddFrom m R) 0 x hx) (hnn x hx)
  · intro hch
    have hz := (ddFrom_all_zero_iff R m hm).mpr hch
    exact le_antisymm
      (foldl_max_le _ 0 0 le_rfl (fun x hx => le_of_eq (hz x hx)))
      (le_foldl_max _ 0)

/-- C6: for a positive initial investment, the maximum drawdown over the
compounding equity curve is nonnegative, and it is zero exactly when the
equity curve is monotonically non-decreasing. -/
theorem maxDrawdown_spec (init : ℚ) (l : List Trade) (h : 0 < init) :
    0 ≤ maxDrawdown init l ∧
    (maxDrawdown init l = 0 ↔ (equityCurve init l).Chain' (· ≤ ·)) := by
  unfold maxDrawdown
  by_cases hl : l = []
  · subst hl
    rw [if_pos rfl]
    refine ⟨le_refl 0, iff_of_true rfl ?_⟩
    show List.Chain (· ≤ ·) init []
    exact List.Chain.nil
  · obtain ⟨t, ts, rfl⟩ := List.exists_cons_of_ne_nil hl
    rw [if_neg hl]
    have hc : equityCurve init (t :: ts) =
        init :: List.scanl (fun e tr => e * (1 + tr.profitPct / 100))
          (init * (1 + t.profitPct / 100)) ts := rfl
    rw [hc]
    dsimp only
    have hhead : (init :: List.scanl (fun e tr => e * (1 + tr.profitPct / 100))
        (init * (1 + t.profitPct / 100)) ts).headI = init := rfl
    rw [hhead]
    have := npMax_dd_spec
      (List.scanl (fun e tr => e * (1 + tr.profitPct / 100))
        (init * (1 + t.profitPct / 100)) ts) init h
    exact ⟨this.1, this.2⟩


/-!  C9: ADX warm-up thresholds -/
theorem adx_push_inv (N k : ℕ) (hN : 1 ≤ N) (s : ADX) (h : AdxInv N k s)
    (hi lo cl : ℚ) : AdxInv N (k + 1) (s.push hi lo cl).1 := by
  obtain ⟨hper, hpd, hmd, htr, hdx, hpdi, hmdi, hadx⟩ := h
  simp only [ADX.push]
  rw [hper]
  have hlen1 : (s.plusDm ++ [(s.dmVals hi lo).1]).length = s.plusDm.length + 1 := by
    simp
  rw [hlen1, hpd]
  by_cases hk : N ≤ k
  · -- pop branch and DI branch both taken
    simp only [if_pos (show N < k ⊓ N + 1 by omega),
      if_pos (show 1 < k ⊓ N + 1 by omega)]
    simp only [List.length_tail, List.length_append, List.length_cons,
      List.length_nil, Nat.zero_add, hpd, hmd, htr, hdx]
    simp only [if_pos (show k ⊓ N + 1 - 1 = N by omega)]
    by_cases hk2 : 2 * N - 1 ≤ k
    · simp only [if_pos (show N < (k - (N - 1)) ⊓ N + 1 by omega)]
      simp only [List.length_tail, List.length_append, List.length_cons,
        List.length_nil, Nat.zero_add, hdx]
      simp only [if_pos (show (k - (N - 1)) ⊓ N + 1 - 1 = N by omega)]
      refine ⟨rfl, ?_, ?_, ?_, ?_, ?_, ?_, ?_⟩
      · simp only [List.length_tail, List.length_append, List.length_cons,
          List.length_nil, Nat.zero_add, hpd]; omega
      · simp only [List.length_tail, List.length_append, List.length_cons,
          List.length_nil, Nat.zero_add, hmd]; omega
      · simp only [List.length_tail, List.length_append, List.length_cons,
          List.length_nil, Nat.zero_add, htr]; omega
      · simp only [List.length_tail, List.length_append, List.length_cons,
          List.length_nil, Nat.zero_add, hdx]; omega
      · exact iff_of_false (by simp) (by omega)
      · exact iff_of_false (by simp) (by omega)
      · exact iff_of_false (by simp) (by omega)
    · simp only [if_neg (show ¬ N < (k - (N - 1)) ⊓ N + 1 by omega)]
      simp only [List.length_tail, List.length_append, List.length_cons,
        List.length_nil, Nat.zero_add, hdx]
      by_cases hk3 : k + 1 = 2 * N - 1
      · simp only [if_pos (show (k - (N - 1)) ⊓ N + 1 = N by omega)]
        refine ⟨rfl, ?_, ?_, ?_, ?_, ?_, ?_, ?_⟩
        · simp only [List.length_tail, List.length_append, List.length_cons,
            List.length_nil, Nat.zero_add, hpd]; omega
        · simp only [List.length_tail, List.length_append, List.length_cons,
            List.length_nil, Nat.zero_add, hmd]; omega
        · simp only [List.length_tail, List.length_append, List.length_cons,
            List.length_nil, Nat.zero_add, htr]; omega
        · simp only [List.length_tail, List.length_append, List.length_cons,
            List.length_nil, Nat.zero_add, hdx]; omega
        · exact iff_of_false (by simp) (by omega)
        · exact iff_of_false (by simp) (by omega)
        · exact iff_of_false (by simp) (by omega)
      · simp only [if_neg (show ¬ (k - (N - 1)) ⊓ N + 1 = N by omega)]
        refine ⟨rfl, ?_, ?_, ?_, ?_, ?_, ?_, ?_⟩
        · simp only [List.length_tail, List.length_append, List.length_cons,
            List.length_nil, Nat.zero_add, hpd]; omega
        · simp only [List.length_tail, List.length_append, List.length_cons,
            List.length_nil, Nat.zero_add, hmd]; omega
        · simp only [List.length_tail, List.length_append, List.length_cons,
            List.length_nil, Nat.zero_add, htr]; omega
        · simp only [List.length_tail, List.length_append, List.length_cons,
            List.length_nil, Nat.zero_add, hdx]; omega
        · exact iff_of_false (by simp) (by omega)
        · exact iff_of_false (by simp) (by omega)
        · rw [hadx]; omega
  · -- no pop
    simp only [if_neg (show ¬ N < k ⊓ N + 1 by omega)]
    simp only [List.length_append, List.length_cons, List.length_nil,
      Nat.zero_add, hpd, hmd, htr, hdx]
    by_cases hkN : k + 1 = N
    · simp only [if_pos (show k ⊓ N + 1 = N by omega)]
      simp only [if_neg (show ¬ N < (k - (N - 1)) ⊓ N + 1 by omega)]
      simp only [List.length_append, List.length_cons, List.length_nil,
        Nat.zero_add, hdx]
      by_cases hN1 : N = 1
      · simp only [if_pos (show (k - (N - 1)) ⊓ N + 1 = N by omega)]
        refine ⟨rfl, ?_, ?_, ?_, ?_, ?_, ?_, ?_⟩
        · (try simp only [List.length_append, List.length_cons, List.length_nil,
            Nat.zero_add, hpd]); omega
        · (try simp only [List.length_append, List.length_cons, List.length_nil,
            Nat.zero_add, hmd]); omega
        · split <;>
            ((try simp only [List.length_append, List.length_cons, List.length_nil,
              Nat.zero_add, htr]); omega)
        · (try simp only [List.length_append, List.length_cons, List.length_nil,
            Nat.zero_add, hdx]); omega
        · exact iff_of_false (by simp) (by omega)
        · exact iff_of_false (by simp) (by omega)
        · exact iff_of_false (by simp) (by omega)
      · simp only [if_neg (show ¬ (k - (N - 1)) ⊓ N + 1 = N by omega)]
        refine ⟨rfl, ?_, ?_, ?_, ?_, ?_, ?_, ?_⟩
        · (try simp only [List.length_append, List.length_cons, List.length_nil,
            Nat.zero_add, hpd]); omega
        · (try simp only [List.length_append, List.length_cons, List.length_nil,
            Nat.zero_add, hmd]); omega
        · split <;>
            ((try simp only [List.length_append, List.length_cons, List.length_nil,
              Nat.zero_add, htr]); omega)
        · (try simp only [List.length_append, List.length_cons, List.length_nil,
            Nat.zero_add, hdx]); omega
        · exact iff_of_false (by simp) (by omega)
        · exact iff_of_false (by simp) (by omega)
        · rw [hadx]; omega
    · simp only [if_neg (show ¬ k ⊓ N + 1 = N by omega)]
      refine ⟨rfl, ?_, ?_, ?_, ?_, ?_, ?_, ?_⟩
      · (try simp only [List.length_append, List.length_cons, List.length_nil,
          Nat.zero_add, hpd]); omega
      · (try simp only [List.length_append, List.length_cons, List.length_nil,
          Nat.zero_add, hmd]); omega
      · split <;>
          ((try simp only [List.length_append, List.length_cons, List.length_nil,
            Nat.zero_add, htr]); omega)
      · (try rw [hdx]); omega
      · rw [hpdi]; omega
      · rw [hmdi]; omega
      · rw [hadx]; omega



theorem adx_init_inv (N : ℕ) (hN : 1 ≤ N) : AdxInv N 0 (ADX.init N) := by
  refine ⟨rfl, ?_, ?_, ?_, ?_, ?_, ?_, ?_⟩
  · show (0 : ℕ) = 0 ⊓ N; omega
  · show (0 : ℕ) = 0 ⊓ N; omega
  · show (0 : ℕ) = (0 - 1) ⊓ (N - 1); omega
  · show (0 : ℕ) = (0 - (N - 1)) ⊓ N; omega
  · exact iff_of_true rfl (by omega)
  · exact iff_of_true rfl (by omega)
  · exact iff_of_true rfl (by omega)

theorem adx_pushList_inv (N : ℕ) (hN : 1 ≤ N) (bars : List (ℚ × ℚ × ℚ)) :
    ∀ (k : ℕ) (s : ADX), AdxInv N k s →
      AdxInv N (k + bars.length) (s.pushList bars) := by
  induction bars with
  | nil => intro k s h; simpa using h
  | cons b bs ih =>
      intro k s h
      have h2 := ih (k + 1) _ (adx_push_inv N k hN s h b.1 b.2.1 b.2.2)
      show AdxInv N (k + (bs.length + 1)) ((s.push b.1 b.2.1 b.2.2).1.pushList bs)
      rw [show k + (bs.length + 1) = k + 1 + bs.length by omega]
      exact h2

/-- C9: for every period `N ≥ 1` and every bar series, the +DI and −DI
components returned by `ADX.push` are non-`None` exactly from the N-th push
on, and the ADX component is non-`None` exactly from the (2N−1)-th push on
(N DX samples must accumulate after the DI warm-up); before those
thresholds each component is the unavailable marker. -/
theorem adx_warmup (N : ℕ) (hN : 1 ≤ N) (bars : List (ℚ × ℚ × ℚ)) :
    ((ADX.pushList (ADX.init N) bars).plusDi = none ↔ bars.length < N) ∧
    ((ADX.pushList (ADX.init N) bars).minusDi = none ↔ bars.length < N) ∧
    ((ADX.pushList (ADX.init N) bars).adxValue = none ↔
      bars.length < 2 * N - 1) := by
  have h := adx_pushList_inv N hN bars 0 (ADX.init N) (adx_init_inv N hN)
  rw [Nat.zero_add] at h
  exact ⟨h.2.2.2.2.2.1, h.2.2.2.2.2.2.1, h.2.2.2.2.2.2.2⟩

/-! ## C2: force-close of an open trade at series end -/

/-- C2 (amended): whenever the bar loop of `TrendEmaStrategy.run` ends still
in a trade, the returned trade list is the loop trades plus one final Trade
whose exit date is the last bar's date and whose exit price is the last
bar's close.  (The daily 5-EMA strategy has no such force-close; see the
counterexample theorem.) -/
theorem trendEma_appends_final_trade (dates : List ℤ) (closes lows : List ℚ)
    (h : (trendLoopState dates closes lows).inTrade = true) :
    trendRun dates closes lows =
      (trendLoopState dates closes lows).trades ++
        [⟨(trendLoopState dates closes lows).entryDate.getD 0,
          (trendLoopState dates closes lows).entryPrice.getD 0,
          pyLast 0 dates, pyLast 0 closes⟩] := by
  simp only [trendRun]
  rw [if_pos h]

/-- C2 counterexample: on the 203-bar test series the daily 5-EMA strategy
run (`strategy_daily_5ma.py`) ends still in the InTrade state, yet its
trade list is empty — no final trade exiting at the last bar is ever
appended, so the open position is silently dropped. -/
theorem s5_open_trade_dropped :
    (s5Run 100000 cexDates cexCloses cexLows cexHighs).inTrade = true ∧
    (s5Run 100000 cexDates cexCloses cexLows cexHighs).trades = [] := by
  rw [s5Run_cex_eval]
  exact ⟨rfl, rfl⟩

theorem trendEma_appends_final_trade_witness :
    (trendLoopState cexDates cexCloses cexLows).inTrade = true ∧
    trendRun cexDates cexCloses cexLows =
      (trendLoopState cexDates cexCloses cexLows).trades ++
        [⟨(trendLoopState cexDates cexCloses cexLows).entryDate.getD 0,
          (trendLoopState cexDates cexCloses cexLows).entryPrice.getD 0,
          pyLast 0 cexDates, pyLast 0 cexCloses⟩] := by
  have hc : (trendLoopState cexDates cexCloses cexLows).inTrade = true := by
    rw [trendLoop_cex_eval]; rfl
  exact ⟨hc, trendEma_appends_final_trade cexDates cexCloses cexLows hc⟩

/-! ## Concrete witnesses and the remaining concrete counterexamples -/

section ConcreteWitnesses

attribute [local semireducible] Rat.add Rat.mul Rat.sub Rat.inv

set_option maxRecDepth 10000

/-- C1: evaluation of `ADX.push` at a failing input.  With period 2 and the
bars (h,l,c) = (10,9,9.5) then (12,11,11.5), the TR value appended by the
code is 1 (computed from the CURRENT close), while the True Range from the
previous close — the code's own `_calculate_true_range` at prev_close 9.5 —
is 5/2; and after a third bar the TR buffer holds 1 = N−1 entries, not N. -/
theorem adx_tr_current_close_eval :
    (ADX.pushList (ADX.init 2) [(10, 9, 19/2), (12, 11, 23/2)]).tr = [1] ∧
    ADX.trueRange 12 11 (19/2) = 5/2 ∧
    (1 : ℚ) ≠ 5/2 ∧
    (ADX.pushList (ADX.init 2)
      [(10, 9, 19/2), (12, 11, 23/2), (14, 13, 27/2)]).tr.length = 1 := by
  refine ⟨by decide, by decide, by decide, by decide⟩

/-- C3 counterexample: for the single trade entered at day 0 and exited at
day 366, the code's `years_invested` is 367/365.25 (the span PLUS ONE day,
over 365.25), not 366/365.25 as the claim states. -/
theorem yearsInvested_counterexample :
    yearsInvested [(⟨0, 100, 366, 110⟩ : Trade)] ≠ (366 : ℚ) / (1461 / 4) := by
  decide

theorem stats_years_cagr_witness :
    (1000 : ℚ) ≠ 0 ∧ [(⟨0, 100, 366, 110⟩ : Trade)] ≠ [] ∧
    (yearsInvested [(⟨0, 100, 366, 110⟩ : Trade)] =
      (((lastTrade [(⟨0, 100, 366, 110⟩ : Trade)]).exitDate -
         (headTrade [(⟨0, 100, 366, 110⟩ : Trade)]).entryDate + 1 : ℤ) : ℚ) *
        4 / 1461 ∧
     (0 < yearsInvested [(⟨0, 100, 366, 110⟩ : Trade)] →
       cagr 1000 [(⟨0, 100, 366, 110⟩ : Trade)] =
         ((((([(⟨0, 100, 366, 110⟩ : Trade)]).map
             (fun t => 1 + t.profitPct / 100)).prod : ℚ) : ℝ) ^
           ((1 : ℝ) / (yearsInvested [(⟨0, 100, 366, 110⟩ : Trade)] : ℝ)) - 1) *
           100) ∧
     (yearsInvested [(⟨0, 100, 366, 110⟩ : Trade)] ≤ 0 →
       cagr 1000 [(⟨0, 100, 366, 110⟩ : Trade)] = 0)) :=
  ⟨by decide, by decide, stats_years_cagr 1000 (by decide) _ (by decide)⟩

theorem ema_const_fixed_point_witness :
    1 ≤ 3 ∧
    (EMA.pushList (EMA.init 3) (List.replicate 3 (7 : ℚ))).getEma = some 7 :=
  ⟨by decide, (ema_const_fixed_point 3 (by decide) 7 3).2 (by decide)⟩

theorem baseCounter_reset_witness :
    (90 : ℚ) < 95 ∧
    (((⟨⟨20, [50]⟩, ⟨63, [50]⟩, 3, 120, true, 5, true⟩ : BaseCounter).push
        7 90 80 85 95).getBaseCount = 0 ∧
     ((( ⟨⟨20, [50]⟩, ⟨63, [50]⟩, 3, 120, true, 5, true⟩ : BaseCounter).push
        7 90 80 85 95)).isBaseCounting = false ∧
     (⟨⟨20, [50]⟩, ⟨63, [50]⟩, 3, 120, true, 5, true⟩ : BaseCounter).push
        7 90 80 85 95 =
       ⟨((⟨20, [50]⟩ : RollingHighLowTracker).push 90).1,
        ((⟨63, [50]⟩ : RollingHighLowTracker).push 90).1,
        0, 0, false, 0, false⟩) :=
  ⟨by decide,
   baseCounter_reset_below_ema200 ⟨⟨20, [50]⟩, ⟨63, [50]⟩, 3, 120, true, 5, true⟩
     7 90 80 85 95 (by decide)⟩

theorem maxDrawdown_spec_witness :
    (0 : ℚ) < 1000 ∧
    (0 ≤ maxDrawdown 1000 [(⟨0, 100, 5, 110⟩ : Trade), ⟨10, 100, 15, 90⟩] ∧
     (maxDrawdown 1000 [(⟨0, 100, 5, 110⟩ : Trade), ⟨10, 100, 15, 90⟩] = 0 ↔
       (equityCurve 1000
         [(⟨0, 100, 5, 110⟩ : Trade), ⟨10, 100, 15, 90⟩]).Chain' (· ≤ ·))) :=
  ⟨by decide,
   maxDrawdown_spec 1000 [⟨0, 100, 5, 110⟩, ⟨10, 100, 15, 90⟩] (by decide)⟩

theorem profitFactor_guard_witness :
    (profitFactor 1000 [(⟨0, 100, 5, 90⟩ : Trade)] = none ↔
      totalLoss 1000 [(⟨0, 100, 5, 90⟩ : Trade)] = 0) ∧
    (totalLoss 1000 [(⟨0, 100, 5, 90⟩ : Trade)] ≠ 0 →
      profitFactor 1000 [(⟨0, 100, 5, 90⟩ : Trade)] =
        some (totalGain 1000 [(⟨0, 100, 5, 90⟩ : Trade)] /
          totalLoss 1000 [(⟨0, 100, 5, 90⟩ : Trade)])) ∧
    0 ≤ totalLoss 1000 [(⟨0, 100, 5, 90⟩ : Trade)] :=
  profitFactor_guard 1000 [⟨0, 100, 5, 90⟩]

theorem boolCounter_count_sum_witness :
    1 ≤ 2 ∧
    ((BooleanLookbackCounter.init 2).pushList [true, false, true]).countTrue +
      ((BooleanLookbackCounter.init 2).pushList [true, false, true]).countFalse =
      min [true, false, true].length 2 :=
  ⟨by decide, boolCounter_count_sum 2 (by decide) [true, false, true]⟩

theorem adx_warmup_witness :
    1 ≤ 2 ∧
    (((ADX.pushList (ADX.init 2)
        [((10 : ℚ), (9 : ℚ), (19/2 : ℚ)), (12, 11, 23/2), (14, 13, 27/2)]).plusDi =
        none ↔
      [((10 : ℚ), (9 : ℚ), (19/2 : ℚ)), (12, 11, 23/2), (14, 13, 27/2)].length < 2) ∧
     ((ADX.pushList (ADX.init 2)
        [((10 : ℚ), (9 : ℚ), (19/2 : ℚ)), (12, 11, 23/2), (14, 13, 27/2)]).minusDi =
        none ↔
      [((10 : ℚ), (9 : ℚ), (19/2 : ℚ)), (12, 11, 23/2), (14, 13, 27/2)].length < 2) ∧
     ((ADX.pushList (ADX.init 2)
        [((10 : ℚ), (9 : ℚ), (19/2 : ℚ)), (12, 11, 23/2), (14, 13, 27/2)]).adxValue =
        none ↔
      [((10 : ℚ), (9 : ℚ), (19/2 : ℚ)), (12, 11, 23/2), (14, 13, 27/2)].length <
        2 * 2 - 1)) :=
  ⟨by decide, adx_warmup 2 (by decide) [(10, 9, 19/2), (12, 11, 23/2), (14, 13, 27/2)]⟩

theorem ema_push_return_lag_witness :
    2 ≤ 2 ∧ [(1 : ℚ)].length + 1 = 2 ∧
    ((EMA.pushList (EMA.init 2) [(1 : ℚ)]).getEma = none ∧
     ((EMA.pushList (EMA.init 2) [(1 : ℚ)]).push 2).2 = none ∧
     ((EMA.pushList (EMA.init 2) [(1 : ℚ)]).push 2).1.getEma =
       some (([(1 : ℚ)] ++ [2]).sum / ((2 : ℕ) : ℚ)) ∧
     (∃ v, (((EMA.pushList (EMA.init 2) [(1 : ℚ)]).push 2).1.push 3).2 = some v)) :=
  ⟨by decide, by decide, ema_push_return_lag 2 (by decide) [1] (by decide) 2 3⟩

end ConcreteWitnesses

end TradeBacktest
